import Mathlib

/-!
Verification development for the game-data enrichment pipeline in
`Task2.py` (class `GameDataEnricher`).

The Python code is shallowly embedded: Python `str` values are Lean
`String`s (lists of characters), the relevant `str` primitives
(`strip`, `split`, `lower`, substring membership `in`, `' '.join`) are
modelled for ASCII text exactly as CPython behaves on ASCII input, the
Gemini model service is an opaque function from a prompt to
`Except Unit String` (an exception or a response text), a pandas
`DataFrame` is an ordered association list from column names to value
columns, and the orchestration loop `process_dataframe` is a recursive
function that also records the trace of model calls and sleeps.
-/

set_option maxRecDepth 4000

/-- ASCII whitespace as recognised by Python `str.strip()` / `str.split()`
(space, tab, newline, carriage return, vertical tab, form feed). The
inputs considered throughout are ASCII. -/
def pyIsSpace (c : Char) : Bool :=
  c = ' ' || c = '\t' || c = '\n' || c = '\r' || c = '\x0b' || c = '\x0c'

/-- Python `str.strip()` on the character list: drop whitespace from both
ends. -/
def pyStripList (l : List Char) : List Char :=
  ((l.dropWhile pyIsSpace).reverse.dropWhile pyIsSpace).reverse

/-- Python `str.strip()`. -/
def pyStrip (s : String) : String :=
  ⟨pyStripList s.data⟩

/-- Helper for Python `str.split()`: `acc` is the current token, reversed. -/
def pySplitAux : List Char → List Char → List (List Char)
  | [], [] => []
  | [], acc => [acc.reverse]
  | c :: rest, acc =>
    if pyIsSpace c then
      match acc with
      | [] => pySplitAux rest []
      | _ :: _ => acc.reverse :: pySplitAux rest []
    else
      pySplitAux rest (c :: acc)

/-- Python `str.split()` with no argument: split on runs of whitespace,
producing no empty tokens. -/
def pySplit (s : String) : List String :=
  (pySplitAux s.data []).map (fun l => ⟨l⟩)

/-- Python `str.lower()` (ASCII case folding). -/
def pyLower (s : String) : String :=
  ⟨s.data.map Char.toLower⟩

/-- Does `sub` occur as a contiguous sublist of `l`?  Models Python
`sub in s` on the underlying character lists. -/
def listContainsSub (sub : List Char) : List Char → Bool
  | [] => sub.isEmpty
  | l@(_ :: rest) => sub.isPrefixOf l || listContainsSub sub rest

/-- Python substring membership `sub in s`. -/
def pyIn (sub s : String) : Bool :=
  listContainsSub sub.data s.data

/-- Response normalization step of `classify_genre` (`Task2.py` lines
46-51): strip; if the stripped text contains a space character, take
`split()[0]`.  The `headD` default is unreachable: a stripped string
containing a space splits into at least one token (see
`pySplit_ne_nil_of_space`). -/
def normalize_genre (raw : String) : String :=
  let genre := pyStrip raw
  if pyIn " " genre then (pySplit genre).headD "" else genre

/-- Response normalization step of `generate_description` (`Task2.py`
lines 70-76): strip; if the word count exceeds 30, keep the first 29
words and append a period. -/
def normalize_description (raw : String) : String :=
  let description := pyStrip raw
  let words := pySplit description
  if words.length > 30 then String.intercalate " " (words.take 29) ++ "." else description

/-- The canonical player-mode labels (`valid_modes` in `Task2.py` line 99). -/
def valid_modes : List String :=
  ["Singleplayer", "Multiplayer", "Both"]

/-- Response normalization step of `determine_player_mode` (`Task2.py`
lines 97-111): strip, then the precedence chain of case-insensitive
substring tests, then the exact-match test against `valid_modes`, then
the default `"Both"`. -/
def normalize_player_mode (raw : String) : String :=
  let mode := pyStrip raw
  if pyIn "single" (pyLower mode) then "Singleplayer"
  else if pyIn "multi" (pyLower mode) && !(pyIn "both" (pyLower mode)) then "Multiplayer"
  else if pyIn "both" (pyLower mode) then "Both"
  else if mode ∈ valid_modes then mode
  else "Both"

/-- Variant of `normalize_player_mode` with the exact-match step (the
`if mode in valid_modes: return mode` test) removed; claim C10 asserts
it is extensionally equal to the original. -/
def normalize_player_mode_noExactMatch (raw : String) : String :=
  let mode := pyStrip raw
  if pyIn "single" (pyLower mode) then "Singleplayer"
  else if pyIn "multi" (pyLower mode) && !(pyIn "both" (pyLower mode)) then "Multiplayer"
  else if pyIn "both" (pyLower mode) then "Both"
  else "Both"

/-- The three derived attribute kinds (§3 AttributeKind). -/
inductive AttrKind where
  | genre
  | description
  | playerMode
deriving DecidableEq

/-- The model service boundary: `generate(promptText) → text`, which may
fail (any raised exception is `Except.error ()`). -/
def ModelService : Type :=
  String → Except Unit String

/-- The genre prompt rendered by `classify_genre` (`Task2.py` lines
33-42); the f-string text transcribed byte for byte. -/
def genre_prompt (game_title : String) : String :=
  "\n        Classify the video game \"" ++ game_title ++
  "\" into ONE single-word genre.\n        Choose from: Action, RPG, Sports, Strategy, Simulation, Adventure, \n        Puzzle, Racing, Fighting, Horror, Platformer, Shooter, MMORPG, Sandbox, Card\n        \n        Respond with ONLY the genre word, nothing else.\n        \n        Game: " ++
  game_title ++ "\n        Genre:\n        "

/-- The description prompt rendered by `generate_description`
(`Task2.py` lines 58-66). -/
def description_prompt (game_title : String) : String :=
  "\n        Write a short description for the video game \"" ++ game_title ++
  "\".\n        The description must be under 30 words.\n        Be concise and focus on the core gameplay and unique features.\n        Do not include the game title in the description.\n        \n        Game: " ++
  game_title ++ "\n        Description:\n        "

/-- The player-mode prompt rendered by `determine_player_mode`
(`Task2.py` lines 83-93). -/
def player_mode_prompt (game_title : String) : String :=
  "\n        Determine the player mode for the video game \"" ++ game_title ++
  "\".\n        \n        Respond with ONLY ONE of these three options:\n        - Singleplayer (if the game is primarily single-player only)\n        - Multiplayer (if the game is primarily multiplayer only)\n        - Both (if the game supports both single-player and multiplayer modes)\n        \n        Game: " ++
  game_title ++ "\n        Player Mode:\n        "

/-- The prompt rendered for one attribute kind and one title (§3
ModelQuery). -/
def promptOf : AttrKind → String → String
  | .genre => genre_prompt
  | .description => description_prompt
  | .playerMode => player_mode_prompt

/-- The kind-specific fallback value returned from the `except` arm of
each of the three query methods. -/
def fallbackOf : AttrKind → String
  | .genre => "Unknown"
  | .description => "A video game experience."
  | .playerMode => "Both"

/-- The kind-specific response normalization step. -/
def normalizeOf : AttrKind → String → String
  | .genre => normalize_genre
  | .description => normalize_description
  | .playerMode => normalize_player_mode

/-- `classify_genre` (`Task2.py` lines 31-54): render the prompt, call
the service, normalize; any exception yields `"Unknown"`. -/
def classify_genre (svc : ModelService) (game_title : String) : String :=
  match svc (genre_prompt game_title) with
  | .ok text => normalize_genre text
  | .error _ => "Unknown"

/-- `generate_description` (`Task2.py` lines 56-79): render the prompt,
call the service, normalize; any exception yields
`"A video game experience."`. -/
def generate_description (svc : ModelService) (game_title : String) : String :=
  match svc (description_prompt game_title) with
  | .ok text => normalize_description text
  | .error _ => "A video game experience."

/-- `determine_player_mode` (`Task2.py` lines 81-115): render the
prompt, call the service, normalize; any exception yields `"Both"`. -/
def determine_player_mode (svc : ModelService) (game_title : String) : String :=
  match svc (player_mode_prompt game_title) with
  | .ok text => normalize_player_mode text
  | .error _ => "Both"

/-- The value recorded for one attribute kind given the service outcome
for that kind's query; the three query methods all fit this shape
(`fieldOf_genre` and companions). -/
def fieldOf (k : AttrKind) (svc : ModelService) (game_title : String) : String :=
  match svc (promptOf k game_title) with
  | .ok text => normalizeOf k text
  | .error _ => fallbackOf k

/-- A pandas `DataFrame`, modelled as an ordered association list from
column names to value columns (all value lists of equal length in a
well-formed frame).  The embedding is used on frames holding a
`game_title` column, per the spec's input constraint; `getCol` returns
`[]` for an absent column. -/
structure DataFrame where
  cols : List (String × List String)
deriving DecidableEq

/-- The values of the (first) column named `name`, or `[]` if absent. -/
def getCol (df : DataFrame) (name : String) : List String :=
  match df.cols.find? (fun c => c.1 == name) with
  | some c => c.2
  | none => []

/-- pandas column assignment `df[name] = vals`: replace the values of
every existing column named `name` in place, or append a new trailing
column. -/
def colAssign (df : DataFrame) (name : String) (vals : List String) : DataFrame :=
  if df.cols.any (fun c => c.1 == name) then
    ⟨df.cols.map (fun c => if c.1 == name then (name, vals) else c)⟩
  else
    ⟨df.cols ++ [(name, vals)]⟩

/-- `len(df)`: the number of rows, read off the `game_title` column the
loop iterates over. -/
def numRows (df : DataFrame) : Nat :=
  (getCol df "game_title").length

/-- A well-formed input frame: the `game_title` column is present and
every column has one value per row. -/
def wellFormed (df : DataFrame) : Bool :=
  df.cols.any (fun c => c.1 == "game_title") &&
    df.cols.all (fun c => c.2.length == numRows df)

/-- The input frame does not already carry any of the three derived
column names. -/
def freshCols (df : DataFrame) : Bool :=
  df.cols.all (fun c => !(c.1 == "genre" || c.1 == "short_description" || c.1 == "player_mode"))

/-- One observable step of the orchestration loop: a model call for one
row and attribute kind (covering both outcomes, success or caught
failure), or a `time.sleep`. -/
inductive Event where
  | call (idx : Nat) (kind : AttrKind)
  | sleep (duration : Nat)
deriving DecidableEq

/-- The per-row block of the loop body (`Task2.py` lines 129-156): three
calls in the order Genre, Description, PlayerMode, each followed by
`time.sleep(self.api_delay)`. -/
def rowEvents (idx : Nat) (delay : Nat) : List Event :=
  [.call idx .genre, .sleep delay, .call idx .description, .sleep delay,
   .call idx .playerMode, .sleep delay]

/-- The row indices `start, start+1, ..., start+n-1`. -/
def rowIndices (start : Nat) : Nat → List Nat
  | 0 => []
  | n + 1 => start :: rowIndices (start + 1) n

/-- The complete call/sleep trace of a run over `n` rows. -/
def fullTrace (delay : Nat) (n : Nat) : List Event :=
  (rowIndices 0 n).flatMap (fun i => rowEvents i delay)

/-- The body of the `for idx, row in df.iterrows()` loop (`Task2.py`
lines 129-156), accumulating the three value lists and the call/sleep
trace; `idx` is the current 0-based row index. -/
def processRows (svc : ModelService) (delay : Nat) (idx : Nat) :
    List String → List String × List String × List String × List Event
  | [] => ([], [], [], [])
  | game_title :: rest =>
    let genre := classify_genre svc game_title
    let description := generate_description svc game_title
    let player_mode := determine_player_mode svc game_title
    let r := processRows svc delay (idx + 1) rest
    (genre :: r.1, description :: r.2.1, player_mode :: r.2.2.1,
     rowEvents idx delay ++ r.2.2.2)

/-- The observable outcome of a `process_dataframe` call.  In the
source the three assignments `df[...] = ...` mutate the argument object
in place and `return df` returns that same object, so `ret` and
`dfAfter` (the state of the caller's frame after the call) are the same
frame. -/
structure ProcResult where
  ret : DataFrame
  dfAfter : DataFrame
  trace : List Event
deriving DecidableEq

/-- `process_dataframe` (`Task2.py` lines 117-163): iterate the rows in
order, one Genre/Description/PlayerMode query triple per row with a
sleep after every call, then assign the three new columns `genre`,
`short_description`, `player_mode` in that order.  `delay` stands for
`self.api_delay` (5.0 seconds in the constructor). -/
def process_dataframe (svc : ModelService) (delay : Nat) (df : DataFrame) : ProcResult :=
  let r := processRows svc delay 0 (getCol df "game_title")
  let df1 := colAssign df "genre" r.1
  let df2 := colAssign df1 "short_description" r.2.1
  let df3 := colAssign df2 "player_mode" r.2.2.1
  ⟨df3, df3, r.2.2.2⟩

/-- The output column name of each attribute kind. -/
def colNameOf : AttrKind → String
  | .genre => "genre"
  | .description => "short_description"
  | .playerMode => "player_mode"

/-- The (row, kind) label of a call event. -/
def callOf : Event → Option (Nat × AttrKind)
  | .call i k => some (i, k)
  | .sleep _ => none

/-- Number of occurrences of the event `e` in a trace. -/
def countEvent (e : Event) : List Event → Nat
  | [] => 0
  | x :: rest => (if x = e then 1 else 0) + countEvent e rest

/-- Every model call in the trace is immediately followed by a sleep of
duration `d`. -/
def callsFollowedBySleep (d : Nat) : List Event → Bool
  | [] => true
  | .call _ _ :: .sleep d2 :: rest => d2 == d && callsFollowedBySleep d rest
  | .call _ _ :: _ => false
  | .sleep _ :: rest => callsFollowedBySleep d rest

/- ### Concrete inputs used to instantiate the theorems -/

/-- A model service whose every call raises. -/
def svcFail : ModelService :=
  fun _ => Except.error ()

/-- A model service whose every call succeeds with a whitespace-only
response. -/
def svcBlank : ModelService :=
  fun _ => Except.ok " \t\n "

/-- A one-row frame. -/
def dfOne : DataFrame :=
  ⟨[("game_title", ["Chess Master 3000"])]⟩

/-- A zero-row frame. -/
def dfEmpty : DataFrame :=
  ⟨[("game_title", [])]⟩

/-- A frame that already carries a `genre` column. -/
def dfGenreTaken : DataFrame :=
  ⟨[("game_title", ["Chess Master 3000"]), ("genre", ["Old"])]⟩

/-- A 31-word response text. -/
def thirtyOneWords : String :=
  "a a a a a a a a a a a a a a a a a a a a a a a a a a a a a a a"

/- ### Lemmas about the Python string primitives -/

theorem pySplitAux_ne_nil_of_acc_ne_nil :
    ∀ (l acc : List Char), acc ≠ [] → pySplitAux l acc ≠ [] := by
  intro l
  induction l with
  | nil => intro acc h; cases acc with
    | nil => exact absurd rfl h
    | cons a as => simp [pySplitAux]
  | cons c rest ih =>
    intro acc h
    by_cases hc : pyIsSpace c = true
    · cases acc with
      | nil => exact absurd rfl h
      | cons a as => simp [pySplitAux, hc]
    · simp only [pySplitAux, Bool.not_eq_true] at hc ⊢
      rw [hc]
      exact ih (c :: acc) (by simp)

theorem pySplitAux_ne_nil_of_nonspace :
    ∀ (l : List Char), (∃ c ∈ l, pyIsSpace c = false) → ∀ acc, pySplitAux l acc ≠ [] := by
  intro l
  induction l with
  | nil => rintro ⟨c, hc, _⟩; exact absurd hc (List.not_mem_nil c)
  | cons a rest ih =>
    rintro ⟨c, hc, hns⟩ acc
    by_cases ha : pyIsSpace a = true
    · have hcr : c ∈ rest := by
        rcases List.mem_cons.mp hc with h | h
        · rw [h] at hns; rw [hns] at ha; cases ha
        · exact h
      cases acc with
      | nil => simpa [pySplitAux, ha] using ih ⟨c, hcr, hns⟩ []
      | cons x xs => simp [pySplitAux, ha]
    · simp only [pySplitAux, Bool.not_eq_true] at ha ⊢
      rw [ha]
      exact pySplitAux_ne_nil_of_acc_ne_nil rest (a :: acc) (by simp)

theorem mem_of_listContainsSub_single :
    ∀ (l : List Char) (a : Char), listContainsSub [a] l = true → a ∈ l := by
  intro l a
  induction l with
  | nil => simp [listContainsSub, List.isEmpty]
  | cons b rest ih =>
    intro h
    simp only [listContainsSub, List.isPrefixOf, Bool.or_eq_true, Bool.and_eq_true] at h
    rcases h with ⟨hab, -⟩ | h
    · exact (beq_iff_eq.mp hab) ▸ List.mem_cons_self a rest
    · exact List.mem_cons_of_mem b (ih h)

theorem pyStripList_has_nonspace (l : List Char) (h : pyStripList l ≠ []) :
    ∃ c ∈ pyStripList l, pyIsSpace c = false := by
  unfold pyStripList at h ⊢
  set k := ((l.dropWhile pyIsSpace).reverse.dropWhile pyIsSpace) with hk
  have hkne : k ≠ [] := by
    intro hnil
    rw [hnil] at h
    exact h rfl
  refine ⟨k.head hkne, ?_, ?_⟩
  · exact List.mem_reverse.mpr (List.head_mem hkne)
  · exact List.head_dropWhile_not pyIsSpace (l.dropWhile pyIsSpace).reverse hkne

theorem pySplit_ne_nil_of_space (raw : String) (h : pyIn " " (pyStrip raw) = true) :
    pySplit (pyStrip raw) ≠ [] := by
  have hmem : ' ' ∈ pyStripList raw.data :=
    mem_of_listContainsSub_single _ _ h
  have hne : pyStripList raw.data ≠ [] := by
    intro hnil
    rw [hnil] at hmem
    exact List.not_mem_nil ' ' hmem
  obtain ⟨c, hc, hns⟩ := pyStripList_has_nonspace raw.data hne
  intro hsplit
  exact pySplitAux_ne_nil_of_nonspace _ ⟨c, hc, hns⟩ [] (by simpa [pySplit] using hsplit)

theorem pyStripList_eq_nil_of_all_space (l : List Char) (h : l.all pyIsSpace = true) :
    pyStripList l = [] := by
  have h1 : l.dropWhile pyIsSpace = [] :=
    List.dropWhile_eq_nil_iff.mpr (by simpa using h)
  simp [pyStripList, h1]

theorem pyStrip_eq_empty_of_all_space (raw : String) (h : raw.data.all pyIsSpace = true) :
    pyStrip raw = "" := by
  have : pyStripList raw.data = [] := pyStripList_eq_nil_of_all_space raw.data h
  simp [pyStrip, this]

/- ### Lemmas about the DataFrame operations -/

theorem find?_cons_true {α : Type} (p : α → Bool) (a : α) (l : List α) (h : p a = true) :
    List.find? p (a :: l) = some a := by
  simp [List.find?, h]

theorem find?_cons_false {α : Type} (p : α → Bool) (a : α) (l : List α) (h : p a = false) :
    List.find? p (a :: l) = List.find? p l := by
  simp [List.find?, h]

theorem find?_set_of_any (l : List (String × List String)) (n : String) (vals : List String)
    (h : l.any (fun c => c.1 == n) = true) :
    (l.map (fun c => if c.1 == n then (n, vals) else c)).find? (fun c => c.1 == n) =
      some (n, vals) := by
  induction l with
  | nil => cases h
  | cons c cs ih =>
    by_cases hc : (c.1 == n) = true
    · simp only [List.map_cons, if_pos hc]
      exact find?_cons_true (fun c => c.1 == n) (n, vals) _ (by simp)
    · have hcs : cs.any (fun c => c.1 == n) = true := by
        simpa [List.any_cons, hc] using h
      simp only [List.map_cons, if_neg hc]
      rw [find?_cons_false (fun c => c.1 == n) c _ (Bool.not_eq_true _ ▸ hc)]
      exact ih hcs

theorem find?_set_other (l : List (String × List String)) (n n2 : String) (vals : List String)
    (h : n ≠ n2) :
    (l.map (fun c => if c.1 == n then (n, vals) else c)).find? (fun c => c.1 == n2) =
      l.find? (fun c => c.1 == n2) := by
  induction l with
  | nil => rfl
  | cons c cs ih =>
    by_cases hc : (c.1 == n) = true
    · have hc2 : (c.1 == n2) = false := by
        have he : c.1 = n := beq_iff_eq.mp hc
        simp [he, h]
      have hn2 : (((n, vals) : String × List String).1 == n2) = false := by simp [h]
      simp only [List.map_cons, if_pos hc]
      rw [find?_cons_false (fun c => c.1 == n2) (n, vals) _ hn2,
        find?_cons_false (fun c => c.1 == n2) c _ hc2]
      exact ih
    · simp only [List.map_cons, if_neg hc]
      by_cases hc2 : (c.1 == n2) = true
      · rw [find?_cons_true (fun c => c.1 == n2) c _ hc2,
          find?_cons_true (fun c => c.1 == n2) c _ hc2]
      · rw [find?_cons_false (fun c => c.1 == n2) c _ (Bool.not_eq_true _ ▸ hc2),
          find?_cons_false (fun c => c.1 == n2) c _ (Bool.not_eq_true _ ▸ hc2)]
        exact ih

theorem getCol_colAssign_self (df : DataFrame) (n : String) (vals : List String) :
    getCol (colAssign df n vals) n = vals := by
  unfold colAssign
  by_cases h : df.cols.any (fun c => c.1 == n) = true
  · simp only [if_pos h, getCol, find?_set_of_any df.cols n vals h]
  · simp only [if_neg h, getCol]
    have hnone : df.cols.find? (fun c => c.1 == n) = none :=
      List.find?_eq_none.mpr (by
        intro x hx hpx
        exact h (List.any_eq_true.mpr ⟨x, hx, hpx⟩))
    rw [List.find?_append, hnone]
    simp [List.find?]

theorem getCol_colAssign_other (df : DataFrame) (n n2 : String) (vals : List String)
    (h : n ≠ n2) :
    getCol (colAssign df n vals) n2 = getCol df n2 := by
  unfold colAssign
  by_cases hany : df.cols.any (fun c => c.1 == n) = true
  · simp only [if_pos hany, getCol, find?_set_other df.cols n n2 vals h]
  · simp only [if_neg hany, getCol]
    rw [List.find?_append]
    have hnone : ([(n, vals)].find? (fun c => c.1 == n2)) = none := by
      rw [List.find?_singleton]
      simp [h]
    rw [hnone]
    cases df.cols.find? (fun c => c.1 == n2) <;> rfl

theorem mem_colAssign (df : DataFrame) (n : String) (vals : List String)
    (c : String × List String) (h : c ∈ (colAssign df n vals).cols) :
    c ∈ df.cols ∨ c = (n, vals) := by
  unfold colAssign at h
  by_cases hany : df.cols.any (fun c => c.1 == n) = true
  · simp only [if_pos hany] at h
    obtain ⟨a, ha, hfa⟩ := List.mem_map.mp h
    by_cases hc : (a.1 == n) = true
    · right; rw [if_pos hc] at hfa; exact hfa.symm
    · left; rw [if_neg hc] at hfa; exact hfa ▸ ha
  · simp only [if_neg hany] at h
    rcases List.mem_append.mp h with h | h
    · exact Or.inl h
    · exact Or.inr (by simpa using h)

theorem colAssign_of_not_any (df : DataFrame) (n : String) (vals : List String)
    (h : df.cols.any (fun c => c.1 == n) = false) :
    colAssign df n vals = ⟨df.cols ++ [(n, vals)]⟩ := by
  simp [colAssign, h]

/- ### Lemmas about the orchestration loop -/

theorem classify_genre_eq_fieldOf (svc : ModelService) (t : String) :
    classify_genre svc t = fieldOf .genre svc t := rfl

theorem generate_description_eq_fieldOf (svc : ModelService) (t : String) :
    generate_description svc t = fieldOf .description svc t := rfl

theorem determine_player_mode_eq_fieldOf (svc : ModelService) (t : String) :
    determine_player_mode svc t = fieldOf .playerMode svc t := rfl

theorem processRows_eq (svc : ModelService) (delay : Nat) :
    ∀ (idx : Nat) (ts : List String),
      processRows svc delay idx ts =
        (ts.map (classify_genre svc), ts.map (generate_description svc),
         ts.map (determine_player_mode svc),
         (rowIndices idx ts.length).flatMap (fun i => rowEvents i delay)) := by
  intro idx ts
  induction ts generalizing idx with
  | nil => rfl
  | cons t rest ih =>
    simp only [processRows, ih (idx + 1), List.map_cons, List.length_cons, rowIndices,
      List.flatMap_cons]

theorem process_dataframe_ret (svc : ModelService) (delay : Nat) (df : DataFrame) :
    (process_dataframe svc delay df).ret =
      colAssign
        (colAssign
          (colAssign df "genre" ((getCol df "game_title").map (classify_genre svc)))
          "short_description" ((getCol df "game_title").map (generate_description svc)))
        "player_mode" ((getCol df "game_title").map (determine_player_mode svc)) := by
  simp only [process_dataframe, processRows_eq]

theorem process_dataframe_dfAfter (svc : ModelService) (delay : Nat) (df : DataFrame) :
    (process_dataframe svc delay df).dfAfter = (process_dataframe svc delay df).ret := rfl

theorem process_dataframe_trace (svc : ModelService) (delay : Nat) (df : DataFrame) :
    (process_dataframe svc delay df).trace = fullTrace delay (numRows df) := by
  simp only [process_dataframe, processRows_eq, fullTrace, numRows]

theorem getCol_process (svc : ModelService) (delay : Nat) (df : DataFrame) (k : AttrKind) :
    getCol (process_dataframe svc delay df).ret (colNameOf k) =
      (getCol df "game_title").map (fieldOf k svc) := by
  rw [process_dataframe_ret]
  cases k with
  | genre =>
    rw [colNameOf, getCol_colAssign_other _ _ _ _ (by decide),
      getCol_colAssign_other _ _ _ _ (by decide), getCol_colAssign_self]
    rfl
  | description =>
    rw [colNameOf, getCol_colAssign_other _ _ _ _ (by decide), getCol_colAssign_self]
    rfl
  | playerMode =>
    rw [colNameOf, getCol_colAssign_self]
    rfl

theorem getCol_process_title (svc : ModelService) (delay : Nat) (df : DataFrame) :
    getCol (process_dataframe svc delay df).ret "game_title" = getCol df "game_title" := by
  rw [process_dataframe_ret,
    getCol_colAssign_other _ _ _ _ (by decide),
    getCol_colAssign_other _ _ _ _ (by decide),
    getCol_colAssign_other _ _ _ _ (by decide)]

theorem numRows_process (svc : ModelService) (delay : Nat) (df : DataFrame) :
    numRows (process_dataframe svc delay df).ret = numRows df := by
  simp only [numRows, getCol_process_title]

/- ### Lemmas about the trace -/

theorem filterMap_callOf_rowEvents (i delay : Nat) :
    (rowEvents i delay).filterMap callOf = [(i, .genre), (i, .description), (i, .playerMode)] := rfl

theorem filterMap_callOf_fullTrace (delay : Nat) :
    ∀ (n start : Nat),
      ((rowIndices start n).flatMap (fun i => rowEvents i delay)).filterMap callOf =
        (rowIndices start n).flatMap
          (fun i => [(i, AttrKind.genre), (i, AttrKind.description), (i, AttrKind.playerMode)]) := by
  intro n
  induction n with
  | zero => intro start; rfl
  | succ m ih =>
    intro start
    simp only [rowIndices, List.flatMap_cons, List.filterMap_append, ih (start + 1),
      filterMap_callOf_rowEvents]

theorem callsFollowedBySleep_fullTrace (delay : Nat) :
    ∀ (n start : Nat),
      callsFollowedBySleep delay ((rowIndices start n).flatMap (fun i => rowEvents i delay)) =
        true := by
  intro n
  induction n with
  | zero => intro start; rfl
  | succ m ih =>
    intro start
    simp only [rowIndices, List.flatMap_cons, rowEvents, List.cons_append, List.nil_append,
      callsFollowedBySleep, beq_self_eq_true, Bool.true_and]
    exact ih (start + 1)

theorem getLast?_fullTrace (delay : Nat) :
    ∀ (n start : Nat), 0 < n →
      ((rowIndices start n).flatMap (fun i => rowEvents i delay)).getLast? =
        some (.sleep delay) := by
  intro n
  induction n with
  | zero => intro start h; cases h
  | succ m ih =>
    intro start _
    cases m with
    | zero =>
      simp [rowIndices, rowEvents, List.getLast?]
    | succ q =>
      have hstep : rowIndices start (q + 1 + 1) = start :: rowIndices (start + 1) (q + 1) := rfl
      rw [hstep, List.flatMap_cons, List.getLast?_append, ih (start + 1) (Nat.succ_pos q)]
      rfl

theorem countEvent_append (e : Event) (l1 l2 : List Event) :
    countEvent e (l1 ++ l2) = countEvent e l1 + countEvent e l2 := by
  induction l1 with
  | nil => simp [countEvent]
  | cons x rest ih => simp [countEvent, ih]; omega

theorem countEvent_rowEvents (i delay : Nat) (j : Nat) (k : AttrKind) :
    countEvent (.call j k) (rowEvents i delay) = if j = i then 1 else 0 := by
  by_cases h : j = i
  · subst h
    cases k <;> simp [rowEvents, countEvent]
  · cases k <;> simp [rowEvents, countEvent, Event.call.injEq, h, Ne.symm h]

theorem countEvent_fullTrace (delay : Nat) :
    ∀ (n start : Nat) (i : Nat) (k : AttrKind),
      countEvent (.call i k) ((rowIndices start n).flatMap (fun x => rowEvents x delay)) =
        if start ≤ i ∧ i < start + n then 1 else 0 := by
  intro n
  induction n with
  | zero =>
    intro start i k
    rw [if_neg (by omega : ¬ (start ≤ i ∧ i < start + 0))]
    rfl
  | succ m ih =>
    intro start i k
    simp only [rowIndices, List.flatMap_cons, countEvent_append, countEvent_rowEvents,
      ih (start + 1) i k]
    by_cases h1 : i = start
    · have h2 : ¬ (start + 1 ≤ i ∧ i < start + 1 + m) := by omega
      have h3 : start ≤ i ∧ i < start + (m + 1) := by omega
      simp [h1, h2, h3]
    · by_cases h4 : start + 1 ≤ i ∧ i < start + 1 + m
      · have h5 : start ≤ i ∧ i < start + (m + 1) := by omega
        simp [h1, h4, h5]
      · have h6 : ¬ (start ≤ i ∧ i < start + (m + 1)) := by omega
        simp [h1, h4, h6]

example : normalize_genre "  Strategy game.  " = "Strategy" := by decide
example : normalize_genre "a\tb" = "a\tb" := by decide
example : normalize_player_mode "This game supports both single-player campaign and online multiplayer" = "Singleplayer" := by decide
example : normalize_player_mode " Multiplayer " = "Multiplayer" := by decide
example : normalize_player_mode "both" = "Both" := by decide
example : normalize_player_mode "co-op" = "Both" := by decide
example : normalize_description "  short one  " = "short one" := by decide

theorem fresh_any_eq_false (df : DataFrame) (hfresh : freshCols df = true) :
    df.cols.any (fun c => c.1 == "genre") = false
    ∧ df.cols.any (fun c => c.1 == "short_description") = false
    ∧ df.cols.any (fun c => c.1 == "player_mode") = false := by
  have hall := List.all_eq_true.mp hfresh
  refine ⟨?_, ?_, ?_⟩
  · cases hany : df.cols.any (fun c => c.1 == "genre") with
    | false => rfl
    | true =>
      exfalso
      obtain ⟨c, hc, hpc⟩ := List.any_eq_true.mp hany
      have h2 := hall c hc
      simp [hpc] at h2
  · cases hany : df.cols.any (fun c => c.1 == "short_description") with
    | false => rfl
    | true =>
      exfalso
      obtain ⟨c, hc, hpc⟩ := List.any_eq_true.mp hany
      have h2 := hall c hc
      simp [hpc] at h2
  · cases hany : df.cols.any (fun c => c.1 == "player_mode") with
    | false => rfl
    | true =>
      exfalso
      obtain ⟨c, hc, hpc⟩ := List.any_eq_true.mp hany
      have h2 := hall c hc
      simp [hpc] at h2

theorem process_cols_of_fresh (svc : ModelService) (delay : Nat) (df : DataFrame)
    (hfresh : freshCols df = true) :
    (process_dataframe svc delay df).ret.cols =
      df.cols ++
        [("genre", (getCol df "game_title").map (classify_genre svc)),
         ("short_description", (getCol df "game_title").map (generate_description svc)),
         ("player_mode", (getCol df "game_title").map (determine_player_mode svc))] := by
  obtain ⟨hg, hs, hp⟩ := fresh_any_eq_false df hfresh
  rw [process_dataframe_ret, colAssign_of_not_any df "genre" _ hg]
  rw [colAssign_of_not_any _ "short_description" _ (by
    simp only [List.any_append, List.any_cons, List.any_nil, hs, Bool.or_false, Bool.false_or]
    decide)]
  rw [colAssign_of_not_any _ "player_mode" _ (by
    simp only [List.any_append, List.any_cons, List.any_nil, hp, Bool.or_false, Bool.false_or]
    decide)]
  simp [List.append_assoc]

/- ### Claims -/

/-- Claim C1: `normalize_player_mode` is total — it always returns one of
the three canonical labels — and follows the exact precedence order: text
whose case-insensitive form contains `"single"` yields `"Singleplayer"`;
else containing `"multi"` and not `"both"` yields `"Multiplayer"`; else
containing `"both"` yields `"Both"`; else the trimmed original is
returned when it exactly equals a canonical label, and `"Both"`
otherwise.  In particular text containing both `"single"` and `"multi"`
resolves to `"Singleplayer"`. -/
theorem claim_C1_player_mode_total_precedence (raw : String) :
    normalize_player_mode raw ∈ valid_modes
    ∧ (pyIn "single" (pyLower (pyStrip raw)) = true →
        normalize_player_mode raw = "Singleplayer")
    ∧ (pyIn "single" (pyLower (pyStrip raw)) = false →
        pyIn "multi" (pyLower (pyStrip raw)) = true →
        pyIn "both" (pyLower (pyStrip raw)) = false →
        normalize_player_mode raw = "Multiplayer")
    ∧ (pyIn "single" (pyLower (pyStrip raw)) = false →
        (pyIn "multi" (pyLower (pyStrip raw)) && !(pyIn "both" (pyLower (pyStrip raw)))) = false →
        pyIn "both" (pyLower (pyStrip raw)) = true →
        normalize_player_mode raw = "Both")
    ∧ (pyIn "single" (pyLower (pyStrip raw)) = false →
        (pyIn "multi" (pyLower (pyStrip raw)) && !(pyIn "both" (pyLower (pyStrip raw)))) = false →
        pyIn "both" (pyLower (pyStrip raw)) = false →
        normalize_player_mode raw =
          if pyStrip raw ∈ valid_modes then pyStrip raw else "Both")
    ∧ (pyIn "single" (pyLower (pyStrip raw)) = true →
        pyIn "multi" (pyLower (pyStrip raw)) = true →
        normalize_player_mode raw = "Singleplayer") := by
  refine ⟨?_, ?_, ?_, ?_, ?_, ?_⟩
  · simp only [normalize_player_mode]
    split_ifs with h1 h2 h3 h4
    · decide
    · decide
    · decide
    · exact h4
    · decide
  · intro h1
    simp [normalize_player_mode, h1]
  · intro h1 h2 h3
    simp [normalize_player_mode, h1, h2, h3]
  · intro h1 h2 h3
    simp [normalize_player_mode, h1, h2, h3]
  · intro h1 h2 h3
    have hmulti : pyIn "multi" (pyLower (pyStrip raw)) = false := by
      cases hmu : pyIn "multi" (pyLower (pyStrip raw)) with
      | false => rfl
      | true => rw [hmu, h3] at h2; exact absurd h2 (by decide)
    simp [normalize_player_mode, h1, hmulti, h3]
  · intro h1 h2
    simp [normalize_player_mode, h1]

/-- Witness for C1: a text containing both `"single"` and `"multi"`
resolves to `"Singleplayer"`. -/
theorem claim_C1_witness :
    pyIn "single" (pyLower (pyStrip "single multi")) = true
    ∧ pyIn "multi" (pyLower (pyStrip "single multi")) = true
    ∧ normalize_player_mode "single multi" = "Singleplayer" :=
  ⟨by decide, by decide,
    (claim_C1_player_mode_total_precedence "single multi").2.2.2.2.2 (by decide) (by decide)⟩

/-- Claim C2 (corrected): `normalize_genre` trims leading/trailing
whitespace; if the trimmed text contains a space character, the result
is the first whitespace-separated token (the split is then nonempty);
otherwise — including multi-token inputs whose tokens are separated only
by non-space whitespace such as tabs — the trimmed text is returned
verbatim; no vocabulary validation is performed. -/
theorem claim_C2_first_token_only_on_space (raw : String) :
    (pyIn " " (pyStrip raw) = true →
      pySplit (pyStrip raw) ≠ []
      ∧ normalize_genre raw = (pySplit (pyStrip raw)).headD "")
    ∧ (pyIn " " (pyStrip raw) = false → normalize_genre raw = pyStrip raw) := by
  constructor
  · intro h
    exact ⟨pySplit_ne_nil_of_space raw h, by simp [normalize_genre, h]⟩
  · intro h
    simp [normalize_genre, h]

/-- Witness for C2 (corrected): on a space-separated two-token input the
first token is returned. -/
theorem claim_C2_witness :
    pyIn " " (pyStrip "Strategy game.") = true
    ∧ pySplit (pyStrip "Strategy game.") ≠ []
    ∧ normalize_genre "Strategy game." = (pySplit (pyStrip "Strategy game.")).headD "" := by
  have h := (claim_C2_first_token_only_on_space "Strategy game.").1 (by decide)
  exact ⟨by decide, h.1, h.2⟩

/-- Counterexample for C2 as stated: `"a\tb"` is already trimmed and
contains two whitespace-separated tokens, yet `normalize_genre` returns
it verbatim rather than the first token, because the source guards the
split with `' ' in genre` (a space test, not a whitespace test). -/
theorem claim_C2_counterexample :
    (pySplit (pyStrip "a\tb")).length = 2
    ∧ (pySplit (pyStrip "a\tb")).headD "" = "a"
    ∧ normalize_genre "a\tb" = "a\tb"
    ∧ ("a\tb" : String) ≠ "a" :=
  ⟨by decide, by decide, by decide, by decide⟩

/-- Claim C3: `normalize_description` trims and splits into words; with
more than 30 words the result is exactly the first 29 words joined by
single spaces with a period appended; with at most 30 words the trimmed
input is returned unchanged. -/
theorem claim_C3_description_truncation (raw : String) :
    ((pySplit (pyStrip raw)).length > 30 →
      normalize_description raw =
        String.intercalate " " ((pySplit (pyStrip raw)).take 29) ++ ".")
    ∧ ((pySplit (pyStrip raw)).length ≤ 30 →
      normalize_description raw = pyStrip raw) := by
  constructor
  · intro h
    simp [normalize_description, h]
  · intro h
    simp [normalize_description, Nat.not_lt.mpr h]

/-- Witness for C3: a 31-word response is truncated to its first 29
words plus a period. -/
theorem claim_C3_witness :
    (pySplit (pyStrip thirtyOneWords)).length > 30
    ∧ normalize_description thirtyOneWords =
        String.intercalate " " ((pySplit (pyStrip thirtyOneWords)).take 29) ++ "." :=
  ⟨by decide, (claim_C3_description_truncation thirtyOneWords).1 (by decide)⟩

/-- Claim C9 (implicit): a whitespace-only response returned successfully
for a genre or description query is recorded as the empty string; the
fallbacks `"Unknown"` and `"A video game experience."` are applied only
when the call raises. -/
theorem claim_C9_blank_success_not_fallback (svc : ModelService) (title raw1 raw2 : String)
    (hg : svc (genre_prompt title) = Except.ok raw1)
    (hd : svc (description_prompt title) = Except.ok raw2)
    (h1 : raw1.data.all pyIsSpace = true)
    (h2 : raw2.data.all pyIsSpace = true) :
    classify_genre svc title = ""
    ∧ generate_description svc title = ""
    ∧ classify_genre svc title ≠ "Unknown"
    ∧ generate_description svc title ≠ "A video game experience." := by
  have hs1 : pyStrip raw1 = "" := pyStrip_eq_empty_of_all_space raw1 h1
  have hs2 : pyStrip raw2 = "" := pyStrip_eq_empty_of_all_space raw2 h2
  have hgenre : classify_genre svc title = "" := by
    simp only [classify_genre, hg, normalize_genre, hs1]
    decide
  have hdesc : generate_description svc title = "" := by
    simp only [generate_description, hd, normalize_description, hs2]
    decide
  exact ⟨hgenre, hdesc, by rw [hgenre]; decide, by rw [hdesc]; decide⟩

/-- Witness for C9: with a service that always succeeds with
`" \t\n "`, both fields are recorded as the empty string. -/
theorem claim_C9_witness :
    classify_genre svcBlank "Chess Master 3000" = ""
    ∧ generate_description svcBlank "Chess Master 3000" = "" := by
  have h := claim_C9_blank_success_not_fallback svcBlank "Chess Master 3000"
    " \t\n " " \t\n " rfl rfl (by decide) (by decide)
  exact ⟨h.1, h.2.1⟩

/-- Claim C10 (implicit): the exact-match step of
`normalize_player_mode` is dead code — the variant with the step removed
agrees with the original on every input, because any text equal to a
canonical label already triggers one of the earlier substring rules. -/
theorem claim_C10_exact_match_dead_code (raw : String) :
    normalize_player_mode raw = normalize_player_mode_noExactMatch raw := by
  simp only [normalize_player_mode, normalize_player_mode_noExactMatch]
  by_cases h1 : pyIn "single" (pyLower (pyStrip raw)) = true
  · simp [h1]
  · by_cases h2 :
      (pyIn "multi" (pyLower (pyStrip raw)) && !(pyIn "both" (pyLower (pyStrip raw)))) = true
    · simp [h1, h2]
    · by_cases h3 : pyIn "both" (pyLower (pyStrip raw)) = true
      · simp [h1, h2, h3]
      · have hmem : ¬ (pyStrip raw ∈ valid_modes) := by
          intro hm
          simp only [valid_modes, List.mem_cons] at hm
          rcases hm with hm | hm | hm | hm
          · apply h1; rw [hm]; decide
          · apply h2; rw [hm]; decide
          · apply h3; rw [hm]; decide
          · exact absurd hm (List.not_mem_nil _)
        simp [h1, h2, h3, hmem]

/-- Claim C4: if the model-service call for one query (row `i`, kind `k`)
raises, the corresponding field of that row equals the kind-specific
fallback; the failure never aborts the row or the batch (every derived
column is fully populated and the trace is the complete schedule); the
query is not retried (exactly one call event for that query); and every
other field of every row equals the value determined by its own query's
response alone. -/
theorem claim_C4_per_query_failure_isolated (svc : ModelService) (delay : Nat) (df : DataFrame)
    (i : Nat) (k : AttrKind)
    (hwf : wellFormed df = true)
    (hi : i < numRows df)
    (hfail : svc (promptOf k ((getCol df "game_title").getD i "")) = Except.error ()) :
    (getCol (process_dataframe svc delay df).ret (colNameOf k))[i]? = some (fallbackOf k)
    ∧ (∀ k2 : AttrKind,
        (getCol (process_dataframe svc delay df).ret (colNameOf k2)).length = numRows df)
    ∧ (process_dataframe svc delay df).trace = fullTrace delay (numRows df)
    ∧ countEvent (.call i k) (process_dataframe svc delay df).trace = 1
    ∧ (∀ j : Nat, ∀ k2 : AttrKind, j < numRows df → ¬ (j = i ∧ k2 = k) →
        (getCol (process_dataframe svc delay df).ret (colNameOf k2))[j]? =
          some (fieldOf k2 svc ((getCol df "game_title").getD j ""))) := by
  have hidx : ∀ j : Nat, j < numRows df →
      (getCol df "game_title")[j]? = some ((getCol df "game_title").getD j "") := by
    intro j hj
    rw [List.getD_eq_getElem?_getD, List.getElem?_eq_getElem hj]
    rfl
  have hfallback : fieldOf k svc ((getCol df "game_title").getD i "") = fallbackOf k := by
    unfold fieldOf
    rw [hfail]
  refine ⟨?_, ?_, process_dataframe_trace svc delay df, ?_, ?_⟩
  · rw [getCol_process, List.getElem?_map, hidx i hi]
    exact congrArg some hfallback
  · intro k2
    rw [getCol_process, List.length_map]
    rfl
  · rw [process_dataframe_trace]
    simp only [fullTrace]
    rw [countEvent_fullTrace delay (numRows df) 0 i k]
    rw [if_pos (by omega : 0 ≤ i ∧ i < 0 + numRows df)]
  · intro j k2 hj hne
    rw [getCol_process, List.getElem?_map, hidx j hj]
    rfl

/-- Witness for C4: with a service that always raises, the genre field of
the single row of `dfOne` is the fallback `"Unknown"`. -/
theorem claim_C4_witness :
    wellFormed dfOne = true
    ∧ 0 < numRows dfOne
    ∧ svcFail (promptOf .genre ((getCol dfOne "game_title").getD 0 "")) = Except.error ()
    ∧ (getCol (process_dataframe svcFail 5 dfOne).ret (colNameOf .genre))[0]? =
        some (fallbackOf .genre) := by
  have h := claim_C4_per_query_failure_isolated svcFail 5 dfOne 0 .genre (by decide) (by decide) rfl
  exact ⟨by decide, by decide, rfl, h.1⟩

/-- Claim C5 (corrected): for every well-formed input frame that does not
already carry any of the three derived column names, the output has the
original columns (names, values, row order) as an order-prefix followed
by exactly the trailing columns `genre`, `short_description`,
`player_mode` in that order, the row count is unchanged, and every
column of the output — so all three derived fields of every row — is
fully populated. -/
theorem claim_C5_columns_appended (svc : ModelService) (delay : Nat) (df : DataFrame)
    (hwf : wellFormed df = true) (hfresh : freshCols df = true) :
    (process_dataframe svc delay df).ret.cols =
      df.cols ++
        [("genre", (getCol df "game_title").map (classify_genre svc)),
         ("short_description", (getCol df "game_title").map (generate_description svc)),
         ("player_mode", (getCol df "game_title").map (determine_player_mode svc))]
    ∧ numRows (process_dataframe svc delay df).ret = numRows df
    ∧ ∀ c ∈ (process_dataframe svc delay df).ret.cols, c.2.length = numRows df := by
  have hcols := process_cols_of_fresh svc delay df hfresh
  refine ⟨hcols, numRows_process svc delay df, ?_⟩
  intro c hc
  rw [hcols] at hc
  have hwf2 := hwf
  rw [wellFormed, Bool.and_eq_true] at hwf2
  rcases List.mem_append.mp hc with hc | hc
  · simpa using List.all_eq_true.mp hwf2.2 c hc
  · simp only [List.mem_cons, List.not_mem_nil, or_false] at hc
    rcases hc with rfl | rfl | rfl <;> simp [numRows]

/-- Witness for C5 (corrected): on the fresh one-row frame `dfOne` the
row count is preserved. -/
theorem claim_C5_witness :
    wellFormed dfOne = true
    ∧ freshCols dfOne = true
    ∧ numRows (process_dataframe svcFail 5 dfOne).ret = numRows dfOne :=
  ⟨by decide, by decide,
    (claim_C5_columns_appended svcFail 5 dfOne (by decide) (by decide)).2.1⟩

/-- Counterexample for C5 as stated: `dfGenreTaken` is a dataset whose
rows have a `game_title` field but which already carries a `genre`
column; `process_dataframe` then overwrites that column in place, so the
output gains only two trailing columns and the original columns are not
preserved. -/
theorem claim_C5_counterexample :
    wellFormed dfGenreTaken = true
    ∧ (process_dataframe svcFail 5 dfGenreTaken).ret.cols.length =
        dfGenreTaken.cols.length + 2
    ∧ getCol (process_dataframe svcFail 5 dfGenreTaken).ret "genre" ≠
        getCol dfGenreTaken "genre" :=
  ⟨by decide, by decide, by decide⟩

/-- Claim C6: the call/delay trace is strictly sequential — the trace is
exactly the canonical per-row schedule, the sequence of calls is one
Genre, Description, PlayerMode triple per row with all of row `i` before
all of row `i+1`, a sleep of `delay` immediately follows every call, and
the trace of a nonempty run ends with a sleep (the delay after the last
call of the last row). -/
theorem claim_C6_sequential_trace (svc : ModelService) (delay : Nat) (df : DataFrame) :
    (process_dataframe svc delay df).trace = fullTrace delay (numRows df)
    ∧ (process_dataframe svc delay df).trace.filterMap callOf =
        (rowIndices 0 (numRows df)).flatMap
          (fun i => [(i, AttrKind.genre), (i, AttrKind.description), (i, AttrKind.playerMode)])
    ∧ callsFollowedBySleep delay (process_dataframe svc delay df).trace = true
    ∧ (0 < numRows df →
        (process_dataframe svc delay df).trace.getLast? = some (.sleep delay)) := by
  have ht := process_dataframe_trace svc delay df
  refine ⟨ht, ?_, ?_, ?_⟩
  · rw [ht]
    simp only [fullTrace]
    exact filterMap_callOf_fullTrace delay (numRows df) 0
  · rw [ht]
    simp only [fullTrace]
    exact callsFollowedBySleep_fullTrace delay (numRows df) 0
  · intro hn
    rw [ht]
    simp only [fullTrace]
    exact getLast?_fullTrace delay (numRows df) 0 hn

/-- Witness for C6: the one-row run ends with the sleep that follows the
last call of the last row. -/
theorem claim_C6_witness :
    0 < numRows dfOne
    ∧ (process_dataframe svcFail 5 dfOne).trace.getLast? = some (Event.sleep 5) :=
  ⟨by decide, (claim_C6_sequential_trace svcFail 5 dfOne).2.2.2 (by decide)⟩

/-- Claim C7 (corrected): `process_dataframe` populates the three
derived fields by mutating the input frame in place — after the call the
caller's frame is exactly the returned frame, which (on inputs free of
the derived column names) extends the original columns by three, rather
than leaving the input unchanged. -/
theorem claim_C7_in_place_mutation (svc : ModelService) (delay : Nat) (df : DataFrame)
    (hfresh : freshCols df = true) :
    (process_dataframe svc delay df).dfAfter = (process_dataframe svc delay df).ret
    ∧ df.cols <+: (process_dataframe svc delay df).dfAfter.cols
    ∧ (process_dataframe svc delay df).dfAfter.cols.length = df.cols.length + 3 := by
  have hcols := process_cols_of_fresh svc delay df hfresh
  refine ⟨rfl, ?_, ?_⟩
  · rw [process_dataframe_dfAfter, hcols]
    exact List.prefix_append _ _
  · rw [process_dataframe_dfAfter, hcols]
    simp

/-- Witness for C7 (corrected): on `dfOne` the caller's frame after the
call is the returned frame and has gained the three columns. -/
theorem claim_C7_witness :
    freshCols dfOne = true
    ∧ (process_dataframe svcFail 5 dfOne).dfAfter = (process_dataframe svcFail 5 dfOne).ret
    ∧ (process_dataframe svcFail 5 dfOne).dfAfter.cols.length = dfOne.cols.length + 3 := by
  have h := claim_C7_in_place_mutation svcFail 5 dfOne (by decide)
  exact ⟨by decide, h.1, h.2.2⟩

/-- Counterexample for C7 as stated: the caller's frame after the call
differs from the input frame — `process_dataframe` is an in-place
mutation of its argument (the pandas column assignments), not a copy
that leaves the input dataset unchanged. -/
theorem claim_C7_counterexample :
    (process_dataframe svcFail 5 dfOne).dfAfter ≠ dfOne := by
  decide

/-- Claim C8: on an empty input dataset the run returns an empty output
(zero rows, every column empty) and makes no model-service calls at all
(the trace is empty). -/
theorem claim_C8_empty_dataset (svc : ModelService) (delay : Nat) (df : DataFrame)
    (hempty : df.cols.all (fun c => c.2.length == 0) = true) :
    (process_dataframe svc delay df).trace = []
    ∧ numRows (process_dataframe svc delay df).ret = 0
    ∧ ∀ c ∈ (process_dataframe svc delay df).ret.cols, c.2.length = 0 := by
  have hall := List.all_eq_true.mp hempty
  have hg : getCol df "game_title" = [] := by
    unfold getCol
    cases hfind : df.cols.find? (fun c => c.1 == "game_title") with
    | none => rfl
    | some c =>
      show c.2 = []
      exact List.eq_nil_of_length_eq_zero
        (by simpa using hall c (List.mem_of_find?_eq_some hfind))
  have hnum : numRows df = 0 := by
    rw [numRows, hg]
    rfl
  refine ⟨?_, ?_, ?_⟩
  · rw [process_dataframe_trace, hnum]
    rfl
  · rw [numRows_process, hnum]
  · intro c hc
    rw [process_dataframe_ret, hg] at hc
    simp only [List.map_nil] at hc
    rcases mem_colAssign _ _ _ c hc with hc | rfl
    · rcases mem_colAssign _ _ _ c hc with hc | rfl
      · rcases mem_colAssign _ _ _ c hc with hc | rfl
        · simpa using hall c hc
        · rfl
      · rfl
    · rfl

/-- Witness for C8: the zero-row frame `dfEmpty` produces an empty trace
and a zero-row output. -/
theorem claim_C8_witness :
    (process_dataframe svcFail 5 dfEmpty).trace = []
    ∧ numRows (process_dataframe svcFail 5 dfEmpty).ret = 0 := by
  have h := claim_C8_empty_dataset svcFail 5 dfEmpty (by decide)
  exact ⟨h.1, h.2.1⟩
